import Mathlib

/-!
Shallow embedding of `fodselsnummer.py`.

Validation and generation of Norwegian fødselsnummer identifiers.

Python strings are modelled as `List Char`; Python `int(slice)` on a digit
slice is `toNum`; `datetime.date` values are `Date` records compared
lexicographically, and `date.today()` is passed explicitly as a `today`
argument to the validator.
-/

namespace Fodselsnummer

/-- Python `datetime.date`: a (year, month, day) record.  Python's date
constructor only ever produces calendar-valid dates, so theorems about
functions receiving a date carry an `isRealDate` hypothesis where the
source relies on that. -/
structure Date where
  year : Nat
  month : Nat
  day : Nat
  deriving DecidableEq, Repr

/-- The value of a digit character, Python `int(c)` for `c` in `'0'..'9'`. -/
def digitVal (c : Char) : Nat := c.toNat - 48

/-- The character of a digit value, Python `str(v)` for `v ≤ 9`. -/
def digitChar (v : Nat) : Char :=
  match v with
  | 0 => '0' | 1 => '1' | 2 => '2' | 3 => '3' | 4 => '4'
  | 5 => '5' | 6 => '6' | 7 => '7' | 8 => '8' | 9 => '9'
  | _ => '*'

/-- Python `int(s)` on a string of digit characters. -/
def toNum (cs : List Char) : Nat := cs.foldl (fun acc c => acc * 10 + digitVal c) 0

/-- Source array `staticnumbers1` from `_generate_control_digits`. -/
def staticnumbers1 : List Nat := [3, 7, 6, 1, 8, 9, 4, 5, 2, 1]

/-- Source array `staticnumbers2` from `_generate_control_digits`. -/
def staticnumbers2 : List Nat := [5, 4, 3, 2, 7, 6, 5, 4, 3, 2, 1]

/-- Python `sum += int(numbersofar[x]) * static[x]` accumulated over a loop:
the weighted digit sum of `cs` against the weights `ws`. -/
def weightedSum (ws : List Nat) (cs : List Char) : Nat :=
  (List.zipWith (fun w c => w * digitVal c) ws cs).sum

/-- One control digit from a weighted sum: `rest = sum % 11`; `0` when
`rest == 0`; otherwise `11 - rest`, except that a would-be digit of `10`
(`rest == 1`) raises `InvalidControlDigitException`, modelled as `none`.
This block appears verbatim twice in `_generate_control_digits`. -/
def controlDigitOf (sum : Nat) : Option Nat :=
  let rest := sum % 11
  if rest = 0 then some 0
  else if 11 - rest ≠ 10 then some (11 - rest)
  else none

/-- Source `_generate_control_digits(numbersofar)`: the first loop runs over
indices `0..8` (the first 9 weights of `staticnumbers1`), the second over
indices `0..9` (the first 10 weights of `staticnumbers2`) after the first
control digit has been appended.  `none` models the raised
`InvalidControlDigitException`. -/
def generate_control_digits (numbersofar : List Char) : Option (List Char) :=
  match controlDigitOf (weightedSum (staticnumbers1.take 9) numbersofar) with
  | none => none
  | some control1 =>
    let withC1 := numbersofar ++ [digitChar control1]
    match controlDigitOf (weightedSum (staticnumbers2.take 10) withC1) with
    | none => none
    | some control2 => some (withC1 ++ [digitChar control2])

/-- The distinct `ValueError` messages raised by `validate_fnr`, one
constructor per message string.  `futureDate` is the message
`'Date of fødselsnumber is larger than current date'` that appears in the
source; `invalidDate y m d` is the message `f'{y}-{m}-{d} is not a valid
date'`; `controlDigit` is `'Control digit does not match fødselsnumber'`,
raised both when the checksum computation fails and when the recomputed
string differs. -/
inductive FnrError where
  | malformed
  | dNumber
  | dayRange
  | hNumber
  | monthRange
  | invalidDate (year month day : Nat)
  | futureDate
  | controlDigit
  deriving DecidableEq, Repr

deriving instance DecidableEq for Except

/-- The century-resolution step of `validate_fnr`: individual numbers
000-499 add 1900 to the two-digit year, the rest add 2000; then an
individual number ≥ 900 with a resolved year ≥ 2040 is pulled back by a
century. -/
def resolveYear (yy individual_number : Nat) : Nat :=
  let year := if individual_number ≤ 499 then 1900 + yy else 2000 + yy
  if 900 ≤ individual_number ∧ 2040 ≤ year then year - 100 else year

/-- The D-number branch of `validate_fnr`: a day field in 41-71 is a
D-number — rejected when `d_numbers` is off, otherwise reduced by 40. -/
def adjustDay (day : Nat) (d_numbers : Bool) : Except FnrError Nat :=
  if 41 ≤ day ∧ day ≤ 71 then
    if d_numbers then .ok (day - 40) else .error .dNumber
  else .ok day

/-- The H-number branch of `validate_fnr`: a month field in 41-52 is an
H-number — reduced by 40 when `h_numbers` is on, otherwise rejected. -/
def adjustMonth (month : Nat) (h_numbers : Bool) : Except FnrError Nat :=
  if 41 ≤ month ∧ month ≤ 52 then
    if h_numbers then .ok (month - 40) else .error .hNumber
  else .ok month

/-- The field-decoding steps of `validate_fnr` (lines 31-52 of the
source): slice out day, month, two-digit year and individual number,
apply the D-number and H-number adjustments and range checks in source
order, and resolve the century. -/
def decodeFnr (fnr : List Char) (d_numbers h_numbers : Bool) : Except FnrError Date :=
  match adjustDay (toNum (fnr.take 2)) d_numbers with
  | .error e => .error e
  | .ok day =>
    if ¬ (1 ≤ day ∧ day ≤ 31) then .error .dayRange
    else
      match adjustMonth (toNum ((fnr.drop 2).take 2)) h_numbers with
      | .error e => .error e
      | .ok month =>
        if ¬ (1 ≤ month ∧ month ≤ 12) then .error .monthRange
        else .ok ⟨resolveYear (toNum ((fnr.drop 4).take 2)) (toNum ((fnr.drop 6).take 3)), month, day⟩

/-- Python leap years: `year % 4 == 0 and (year % 100 != 0 or year % 400 == 0)`. -/
def isLeap (y : Nat) : Bool := (y % 4 == 0 && y % 100 != 0) || y % 400 == 0

/-- Days in a month of the proleptic Gregorian calendar used by
`datetime.date`; `0` for a month outside 1-12. -/
def daysInMonth (y m : Nat) : Nat :=
  match m with
  | 1 => 31 | 2 => if isLeap y then 29 else 28 | 3 => 31 | 4 => 30
  | 5 => 31 | 6 => 30 | 7 => 31 | 8 => 31 | 9 => 30 | 10 => 31
  | 11 => 30 | 12 => 31 | _ => 0

/-- The triples accepted by the `datetime.date` constructor (whose
rejection is a `ValueError`). -/
def isRealDate (d : Date) : Prop :=
  1 ≤ d.year ∧ d.year ≤ 9999 ∧ 1 ≤ d.month ∧ d.month ≤ 12 ∧
    1 ≤ d.day ∧ d.day ≤ daysInMonth d.year d.month

instance (d : Date) : Decidable (isRealDate d) := by unfold isRealDate; exact inferInstance

/-- Python date comparison: lexicographic on (year, month, day). -/
def dateLt (a b : Date) : Prop :=
  a.year < b.year ∨ (a.year = b.year ∧ (a.month < b.month ∨ (a.month = b.month ∧ a.day < b.day)))

instance (a b : Date) : Decidable (dateLt a b) := by unfold dateLt; exact inferInstance

/-- Python `FNR_REGEX.match(fnr)` with `FNR_REGEX = re.compile(r'\d\x7b11\x7d')`:
`re.match` anchors at the start only, so it succeeds exactly when the
string has at least 11 characters and its first 11 are digits. -/
def fnrFormatOk (fnr : List Char) : Prop :=
  11 ≤ fnr.length ∧ ∀ c ∈ fnr.take 11, c.isDigit = true

instance (fnr : List Char) : Decidable (fnrFormatOk fnr) := by
  unfold fnrFormatOk; exact inferInstance

/-- Source `validate_fnr(fnr, d_numbers, h_numbers)` with `date.today()` passed
explicitly.  Every raised `ValueError` is an `Except.error`.  Note the
future-date check sits inside the same `try` block as the date
construction, and its `ValueError` is caught by the `except ValueError`
clause and re-raised as the invalid-date message — so both the
impossible-date case and the future-date case surface as
`.invalidDate`. -/
def validate_fnr (fnr : List Char) (d_numbers h_numbers : Bool) (today : Date) :
    Except FnrError Unit :=
  if ¬ fnrFormatOk fnr then .error .malformed
  else
    match decodeFnr fnr d_numbers h_numbers with
    | .error e => .error e
    | .ok dob =>
      if ¬ isRealDate dob then .error (.invalidDate dob.year dob.month dob.day)
      else if dateLt today dob then .error (.invalidDate dob.year dob.month dob.day)
      else
        match generate_control_digits (fnr.take 9) with
        | none => .error .controlDigit
        | some generatedfnr =>
          if fnr = generatedfnr then .ok () else .error .controlDigit

/-- Source `check_fnr(fnr, d_numbers, h_numbers, logger)`: returns the boolean
result together with the message passed to the `logger` callback (`none`
when the logger is never invoked). -/
def check_fnr (fnr : List Char) (d_numbers h_numbers : Bool) (today : Date) :
    Bool × Option FnrError :=
  match validate_fnr fnr d_numbers h_numbers today with
  | .ok _ => (true, none)
  | .error e => (false, some e)

/-- A zero-padded two-digit field of `day.strftime('%d%m%y')`. -/
def twoDigitChars (n : Nat) : List Char := [digitChar (n / 10), digitChar (n % 10)]

/-- Python `day.strftime('%d%m%y')`. -/
def dateChars (d : Date) : List Char :=
  twoDigitChars d.day ++ twoDigitChars d.month ++ twoDigitChars (d.year % 100)

/-- Python `str(x).zfill(3)` for an individual number `x ≤ 999`. -/
def ind3Chars (x : Nat) : List Char :=
  [digitChar (x / 100), digitChar (x / 10 % 10), digitChar (x % 10)]

/-- Python `str(int(datestring[0]) + 4) + datestring[1:]`: the D-number date
string, adding 4 to the tens digit of the day field. -/
def dnrDateChars (ds : List Char) : List Char :=
  match ds with
  | [] => []
  | c :: rest => digitChar (digitVal c + 4) :: rest

/-- One iteration of the generator loop body for individual number `x`:
append the plain candidate on checksum success, then the D-number
candidate when `d_numbers` is set. -/
def dayCandidates (datestring dnrdatestring : List Char) (d_numbers : Bool) (x : Nat) :
    List (List Char) :=
  (generate_control_digits (datestring ++ ind3Chars x)).toList ++
    (if d_numbers then (generate_control_digits (dnrdatestring ++ ind3Chars x)).toList else [])

/-- Python `for x in range(lo, lo + cnt)` over the generator loop body. -/
def bandFnrs (datestring dnrdatestring : List Char) (d_numbers : Bool) (lo cnt : Nat) :
    List (List Char) :=
  (List.range' lo cnt).flatMap (dayCandidates datestring dnrdatestring d_numbers)

/-- Source `generate_fnr_for_day(day, d_numbers)`: individual numbers 000-499
for years 1900-1999 (with the extra 900-999 round for 1940-1999),
500-999 otherwise. -/
def generate_fnr_for_day (day : Date) (d_numbers : Bool) : List (List Char) :=
  let datestring := dateChars day
  let dnrdatestring := dnrDateChars datestring
  if 1900 ≤ day.year ∧ day.year ≤ 1999 then
    bandFnrs datestring dnrdatestring d_numbers 0 500 ++
      (if 1940 ≤ day.year then bandFnrs datestring dnrdatestring d_numbers 900 100 else [])
  else
    bandFnrs datestring dnrdatestring d_numbers 500 500

/-- The successor of a calendar date. -/
def nextDay (d : Date) : Date :=
  if d.day < daysInMonth d.year d.month then ⟨d.year, d.month, d.day + 1⟩
  else if d.month < 12 then ⟨d.year, d.month + 1, 1⟩
  else ⟨d.year + 1, 1, 1⟩

/-- Python `startdate + timedelta(days=n)`: adding `n` days to a date. -/
def addDays (d : Date) : Nat → Date
  | 0 => d
  | n + 1 => nextDay (addDays d n)

/-- Days of year `y` strictly before month `m`. -/
def daysBeforeMonth (y m : Nat) : Nat := ((List.range' 1 (m - 1)).map (daysInMonth y)).sum

/-- Leap years strictly before year `y` in the proleptic Gregorian
calendar. -/
def leapsBefore (y : Nat) : Nat := (y - 1) / 4 - (y - 1) / 100 + (y - 1) / 400

/-- Python `date.toordinal()`: the proleptic Gregorian ordinal, so that
`(enddate - startdate).days = toOrdinal enddate - toOrdinal startdate`. -/
def toOrdinal (d : Date) : Nat :=
  365 * (d.year - 1) + leapsBefore d.year + daysBeforeMonth d.year d.month + d.day

/-- Source `generate_fnr_for_year(year, d_numbers)`: iterate
`range(delta.days + 1)` from January 1 and concatenate the per-day
lists. -/
def generate_fnr_for_year (year : Nat) (d_numbers : Bool) : List (List Char) :=
  let startdate : Date := ⟨year, 1, 1⟩
  let enddate : Date := ⟨year, 12, 31⟩
  let deltaDays := toOrdinal enddate - toOrdinal startdate
  (List.range (deltaDays + 1)).flatMap
    (fun i => generate_fnr_for_day (addDays startdate i) d_numbers)

/-- The dates of month `m` of year `y`, in order. -/
def monthDays (y m : Nat) : List Date := (List.range' 1 (daysInMonth y m)).map (fun j => ⟨y, m, j⟩)

/-- Every calendar day of year `y`, January 1 through December 31, in
date order. -/
def daysOfYear (y : Nat) : List Date := (List.range' 1 12).flatMap (monthDays y)

/-! ## Digit characters -/

theorem digitVal_digitChar {v : Nat} (h : v ≤ 9) : digitVal (digitChar v) = v := by
  interval_cases v <;> rfl

theorem isDigit_digitChar {v : Nat} (h : v ≤ 9) : (digitChar v).isDigit = true := by
  interval_cases v <;> decide

theorem toNat_bounds_of_isDigit {c : Char} (h : c.isDigit = true) :
    48 ≤ c.toNat ∧ c.toNat ≤ 57 := by
  simp [Char.isDigit, UInt32.le_def, BitVec.le_def] at h
  exact h

theorem digitChar_digitVal {c : Char} (h : c.isDigit = true) : digitChar (digitVal c) = c := by
  obtain ⟨ha, hb⟩ := toNat_bounds_of_isDigit h
  have h3 : c = Char.ofNat c.toNat := (Char.ofNat_toNat c).symm
  rw [h3]
  unfold digitVal
  generalize c.toNat = n at ha hb ⊢
  interval_cases n <;> decide

theorem digitVal_le_of_isDigit {c : Char} (h : c.isDigit = true) : digitVal c ≤ 9 := by
  obtain ⟨_, hb⟩ := toNat_bounds_of_isDigit h
  unfold digitVal
  omega

/-! ## `toNum` on short digit strings -/

theorem toNum_two (a b : Char) : toNum [a, b] = 10 * digitVal a + digitVal b := by
  simp [toNum]
  omega

theorem toNum_three (a b c : Char) :
    toNum [a, b, c] = 100 * digitVal a + 10 * digitVal b + digitVal c := by
  simp [toNum]
  omega

/-! ## Structure of `generate_control_digits` results -/

theorem controlDigitOf_le {s c : Nat} (h : controlDigitOf s = some c) : c ≤ 9 := by
  simp only [controlDigitOf] at h
  split_ifs at h <;> simp_all <;> omega

theorem generate_control_digits_eq_some {s t : List Char}
    (h : generate_control_digits s = some t) :
    ∃ c1 c2, c1 ≤ 9 ∧ c2 ≤ 9 ∧ t = s ++ [digitChar c1, digitChar c2] := by
  unfold generate_control_digits at h
  rcases h1 : controlDigitOf (weightedSum (staticnumbers1.take 9) s) with _ | c1
  · rw [h1] at h; exact absurd h (by simp)
  · rw [h1] at h
    simp only at h
    rcases h2 : controlDigitOf (weightedSum (staticnumbers2.take 10) (s ++ [digitChar c1]))
      with _ | c2
    · rw [h2] at h; exact absurd h (by simp)
    · rw [h2] at h
      simp only [Option.some.injEq] at h
      exact ⟨c1, c2, controlDigitOf_le h1, controlDigitOf_le h2, by rw [← h]; simp⟩

theorem take_of_generate_control_digits {s t : List Char}
    (h : generate_control_digits s = some t) : t.take s.length = s ∧ t.length = s.length + 2 := by
  obtain ⟨c1, c2, _, _, rfl⟩ := generate_control_digits_eq_some h
  constructor
  · simp [List.take_append]
  · simp

/-! ## Century resolution -/

/-- The individual-number band condition linking a full year in 1900-2039
to the individual numbers that the validator resolves back to it. -/
def bandCond (y x : Nat) : Prop :=
  (y ≤ 1999 ∧ x ≤ 499) ∨ (1940 ≤ y ∧ y ≤ 1999 ∧ 900 ≤ x) ∨ (2000 ≤ y ∧ 500 ≤ x)

theorem resolveYear_eq_iff {y yy x : Nat} (h1 : 1900 ≤ y) (h2 : y ≤ 2039) (hyy : yy ≤ 99) :
    resolveYear yy x = y ↔ (yy = y % 100 ∧ bandCond y x) := by
  simp only [resolveYear, bandCond]
  split_ifs <;> omega

/-! ## Membership in the generator bands -/

theorem mem_range_one {s n m : Nat} : m ∈ List.range' s n ↔ s ≤ m ∧ m < s + n := by
  rw [List.mem_range']
  constructor
  · rintro ⟨i, hi, rfl⟩; omega
  · intro h; exact ⟨m - s, by omega, by omega⟩

theorem mem_bandFnrs {p dn : List Char} {f : Bool} {lo cnt : Nat} {s : List Char} :
    s ∈ bandFnrs p dn f lo cnt ↔
      ∃ x, lo ≤ x ∧ x < lo + cnt ∧
        (generate_control_digits (p ++ ind3Chars x) = some s ∨
          (f = true ∧ generate_control_digits (dn ++ ind3Chars x) = some s)) := by
  simp only [bandFnrs, List.mem_flatMap, dayCandidates, List.mem_append, Option.mem_toList,
    Option.mem_def]
  constructor
  · rintro ⟨x, hx, hmem⟩
    refine ⟨x, (mem_range_one.mp hx).1, (mem_range_one.mp hx).2, ?_⟩
    rcases hmem with h | h
    · exact Or.inl h
    · cases f with
      | false => simp at h
      | true => exact Or.inr ⟨rfl, by simpa using h⟩
  · rintro ⟨x, hx1, hx2, hmem⟩
    refine ⟨x, mem_range_one.mpr ⟨hx1, hx2⟩, ?_⟩
    rcases hmem with h | ⟨hf, h⟩
    · exact Or.inl h
    · subst hf; exact Or.inr (by simpa using h)

/-! ## Characterising the decoder (H-numbers disallowed) -/

theorem decodeFnr_ok_intro_plain {fnr : List Char} {df : Bool}
    (h1 : ¬ (41 ≤ toNum (fnr.take 2) ∧ toNum (fnr.take 2) ≤ 71))
    (h2 : 1 ≤ toNum (fnr.take 2)) (h2b : toNum (fnr.take 2) ≤ 31)
    (h3 : ¬ (41 ≤ toNum ((fnr.drop 2).take 2) ∧ toNum ((fnr.drop 2).take 2) ≤ 52))
    (h4 : 1 ≤ toNum ((fnr.drop 2).take 2)) (h4b : toNum ((fnr.drop 2).take 2) ≤ 12) :
    decodeFnr fnr df false =
      .ok ⟨resolveYear (toNum ((fnr.drop 4).take 2)) (toNum ((fnr.drop 6).take 3)),
        toNum ((fnr.drop 2).take 2), toNum (fnr.take 2)⟩ := by
  unfold decodeFnr adjustDay adjustMonth
  rw [if_neg h1]
  simp only
  rw [if_neg (by omega : ¬ ¬ (1 ≤ toNum (fnr.take 2) ∧ toNum (fnr.take 2) ≤ 31)), if_neg h3]
  simp only
  rw [if_neg (by omega :
    ¬ ¬ (1 ≤ toNum ((fnr.drop 2).take 2) ∧ toNum ((fnr.drop 2).take 2) ≤ 12))]

theorem decodeFnr_ok_intro_dnr {fnr : List Char}
    (h1 : 41 ≤ toNum (fnr.take 2)) (h1b : toNum (fnr.take 2) ≤ 71)
    (h3 : ¬ (41 ≤ toNum ((fnr.drop 2).take 2) ∧ toNum ((fnr.drop 2).take 2) ≤ 52))
    (h4 : 1 ≤ toNum ((fnr.drop 2).take 2)) (h4b : toNum ((fnr.drop 2).take 2) ≤ 12) :
    decodeFnr fnr true false =
      .ok ⟨resolveYear (toNum ((fnr.drop 4).take 2)) (toNum ((fnr.drop 6).take 3)),
        toNum ((fnr.drop 2).take 2), toNum (fnr.take 2) - 40⟩ := by
  unfold decodeFnr adjustDay adjustMonth
  rw [if_pos ⟨h1, h1b⟩]
  simp only [if_pos]
  rw [if_neg (by omega :
    ¬ ¬ (1 ≤ toNum (fnr.take 2) - 40 ∧ toNum (fnr.take 2) - 40 ≤ 31)), if_neg h3]
  simp only
  rw [if_neg (by omega :
    ¬ ¬ (1 ≤ toNum ((fnr.drop 2).take 2) ∧ toNum ((fnr.drop 2).take 2) ≤ 12))]

theorem decodeFnr_ok_elim {fnr : List Char} {df : Bool} {d : Date}
    (h : decodeFnr fnr df false = .ok d) :
    d.month = toNum ((fnr.drop 2).take 2) ∧ 1 ≤ d.month ∧ d.month ≤ 12 ∧
      d.year = resolveYear (toNum ((fnr.drop 4).take 2)) (toNum ((fnr.drop 6).take 3)) ∧
      1 ≤ d.day ∧ d.day ≤ 31 ∧
      ((¬ (41 ≤ toNum (fnr.take 2) ∧ toNum (fnr.take 2) ≤ 71) ∧ d.day = toNum (fnr.take 2)) ∨
        (41 ≤ toNum (fnr.take 2) ∧ toNum (fnr.take 2) ≤ 71 ∧ df = true ∧
          d.day = toNum (fnr.take 2) - 40)) := by
  unfold decodeFnr at h
  split at h
  · exact absurd h (by simp)
  · rename_i day heq
    split at h
    · exact absurd h (by simp)
    · split at h
      · exact absurd h (by simp)
      · rename_i month heq2
        split at h
        · exact absurd h (by simp)
        · simp only [Except.ok.injEq] at h
          subst h
          unfold adjustDay at heq
          unfold adjustMonth at heq2
          split_ifs at heq heq2 with ha hb hc <;>
            simp only [Except.ok.injEq] at heq heq2 <;>
            subst heq <;> subst heq2 <;>
            simp_all <;> omega

/-! ## Generated candidates satisfy the validator-side predicates -/

theorem daysInMonth_le (y m : Nat) : daysInMonth y m ≤ 31 := by
  unfold daysInMonth
  split <;> first | omega | (split <;> omega)

theorem exists_eleven {s : List Char} (h : s.length = 11) :
    ∃ a b c d e f g i j k l, s = [a, b, c, d, e, f, g, i, j, k, l] := by
  rcases s with _ | ⟨a, s⟩; · exact absurd h (by simp)
  rcases s with _ | ⟨b, s⟩; · exact absurd h (by simp)
  rcases s with _ | ⟨c, s⟩; · exact absurd h (by simp)
  rcases s with _ | ⟨d, s⟩; · exact absurd h (by simp)
  rcases s with _ | ⟨e, s⟩; · exact absurd h (by simp)
  rcases s with _ | ⟨f, s⟩; · exact absurd h (by simp)
  rcases s with _ | ⟨g, s⟩; · exact absurd h (by simp)
  rcases s with _ | ⟨i, s⟩; · exact absurd h (by simp)
  rcases s with _ | ⟨j, s⟩; · exact absurd h (by simp)
  rcases s with _ | ⟨k, s⟩; · exact absurd h (by simp)
  rcases s with _ | ⟨l, s⟩; · exact absurd h (by simp)
  have hs : s = [] := by
    simp only [List.length_cons] at h
    exact List.eq_nil_of_length_eq_zero (by omega)
  subst hs
  exact ⟨a, b, c, d, e, f, g, i, j, k, l, rfl⟩

theorem toNum_slices (a b c d e f g i j k l : Char) :
    toNum (([a, b, c, d, e, f, g, i, j, k, l] : List Char).take 2) =
        10 * digitVal a + digitVal b ∧
      toNum ((([a, b, c, d, e, f, g, i, j, k, l] : List Char).drop 2).take 2) =
        10 * digitVal c + digitVal d ∧
      toNum ((([a, b, c, d, e, f, g, i, j, k, l] : List Char).drop 4).take 2) =
        10 * digitVal e + digitVal f ∧
      toNum ((([a, b, c, d, e, f, g, i, j, k, l] : List Char).drop 6).take 3) =
        100 * digitVal g + 10 * digitVal i + digitVal j := by
  refine ⟨?_, ?_, ?_, ?_⟩ <;> simp [toNum] <;> omega

theorem dateChars_cons (d : Date) (x : Nat) (rest : List Char) :
    dateChars d ++ ind3Chars x ++ rest =
      [digitChar (d.day / 10), digitChar (d.day % 10), digitChar (d.month / 10),
        digitChar (d.month % 10), digitChar (d.year % 100 / 10), digitChar (d.year % 100 % 10),
        digitChar (x / 100), digitChar (x / 10 % 10), digitChar (x % 10)] ++ rest := by
  simp [dateChars, twoDigitChars, ind3Chars]

theorem dnrDateChars_cons (d : Date) (x : Nat) (rest : List Char) (hday : d.day ≤ 99) :
    dnrDateChars (dateChars d) ++ ind3Chars x ++ rest =
      [digitChar (d.day / 10 + 4), digitChar (d.day % 10), digitChar (d.month / 10),
        digitChar (d.month % 10), digitChar (d.year % 100 / 10), digitChar (d.year % 100 % 10),
        digitChar (x / 100), digitChar (x / 10 % 10), digitChar (x % 10)] ++ rest := by
  simp [dateChars, twoDigitChars, ind3Chars, dnrDateChars]
  rw [digitVal_digitChar (by omega)]

theorem checksum_fixed {p s : List Char} (hp : p.length = 9)
    (h : generate_control_digits p = some s) :
    generate_control_digits (s.take 9) = some s := by
  obtain ⟨htake, _⟩ := take_of_generate_control_digits h
  rw [hp] at htake
  rw [htake, h]

theorem candidate_spec_plain {d : Date} (f : Bool) {x : Nat}
    (hv : isRealDate d) (h1 : 1900 ≤ d.year) (h2 : d.year ≤ 2039)
    (hx : x ≤ 999) (hband : bandCond d.year x) {s : List Char}
    (hgen : generate_control_digits (dateChars d ++ ind3Chars x) = some s) :
    s.length = 11 ∧ (∀ c ∈ s, c.isDigit = true) ∧ decodeFnr s f false = .ok d ∧
      generate_control_digits (s.take 9) = some s := by
  obtain ⟨e1, e2, he1, he2, rfl⟩ := generate_control_digits_eq_some hgen
  obtain ⟨hy1, hy2, hm1, hm2, hd1, hd2⟩ := hv
  have hday : d.day ≤ 31 := le_trans hd2 (daysInMonth_le _ _)
  rw [dateChars_cons] at hgen ⊢
  obtain ⟨ht2, ht4, ht6, ht8⟩ := toNum_slices (digitChar (d.day / 10)) (digitChar (d.day % 10))
    (digitChar (d.month / 10)) (digitChar (d.month % 10)) (digitChar (d.year % 100 / 10))
    (digitChar (d.year % 100 % 10)) (digitChar (x / 100)) (digitChar (x / 10 % 10))
    (digitChar (x % 10)) (digitChar e1) (digitChar e2)
  rw [digitVal_digitChar (by omega), digitVal_digitChar (by omega)] at ht2
  rw [digitVal_digitChar (by omega), digitVal_digitChar (by omega)] at ht4
  rw [digitVal_digitChar (by omega), digitVal_digitChar (by omega)] at ht6
  rw [digitVal_digitChar (by omega), digitVal_digitChar (by omega),
    digitVal_digitChar (by omega)] at ht8
  refine ⟨by simp, ?_, ?_, ?_⟩
  · intro c hc
    simp only [List.cons_append, List.nil_append, List.mem_cons, List.not_mem_nil,
      or_false] at hc
    rcases hc with rfl | rfl | rfl | rfl | rfl | rfl | rfl | rfl | rfl | rfl | rfl <;>
      exact isDigit_digitChar (by omega)
  · show decodeFnr ([digitChar (d.day / 10), digitChar (d.day % 10), digitChar (d.month / 10),
      digitChar (d.month % 10), digitChar (d.year % 100 / 10), digitChar (d.year % 100 % 10),
      digitChar (x / 100), digitChar (x / 10 % 10), digitChar (x % 10)] ++
        [digitChar e1, digitChar e2]) f false = .ok d
    simp only [List.cons_append, List.nil_append] at ht2 ht4 ht6 ht8 ⊢
    rw [decodeFnr_ok_intro_plain (by omega) (by omega) (by omega) (by omega) (by omega)
      (by omega)]
    rw [ht2, ht4, ht6, ht8]
    have hyy : 10 * (d.year % 100 / 10) + d.year % 100 % 10 = d.year % 100 := by omega
    have hxx : 100 * (x / 100) + 10 * (x / 10 % 10) + x % 10 = x := by omega
    rw [hyy, hxx]
    have hres : resolveYear (d.year % 100) x = d.year :=
      (resolveYear_eq_iff h1 h2 (by omega)).mpr ⟨rfl, hband⟩
    rw [hres,
      show 10 * (d.month / 10) + d.month % 10 = d.month from by omega,
      show 10 * (d.day / 10) + d.day % 10 = d.day from by omega]
  · exact checksum_fixed (by simp [dateChars, twoDigitChars, ind3Chars, dnrDateChars]) hgen

theorem candidate_spec_dnr {d : Date} {x : Nat}
    (hv : isRealDate d) (h1 : 1900 ≤ d.year) (h2 : d.year ≤ 2039)
    (hx : x ≤ 999) (hband : bandCond d.year x) {s : List Char}
    (hgen : generate_control_digits (dnrDateChars (dateChars d) ++ ind3Chars x) = some s) :
    s.length = 11 ∧ (∀ c ∈ s, c.isDigit = true) ∧ decodeFnr s true false = .ok d ∧
      generate_control_digits (s.take 9) = some s := by
  obtain ⟨e1, e2, he1, he2, rfl⟩ := generate_control_digits_eq_some hgen
  obtain ⟨hy1, hy2, hm1, hm2, hd1, hd2⟩ := hv
  have hday : d.day ≤ 31 := le_trans hd2 (daysInMonth_le _ _)
  rw [dnrDateChars_cons _ _ _ (by omega)] at hgen ⊢
  obtain ⟨ht2, ht4, ht6, ht8⟩ := toNum_slices (digitChar (d.day / 10 + 4))
    (digitChar (d.day % 10)) (digitChar (d.month / 10)) (digitChar (d.month % 10))
    (digitChar (d.year % 100 / 10)) (digitChar (d.year % 100 % 10)) (digitChar (x / 100))
    (digitChar (x / 10 % 10)) (digitChar (x % 10)) (digitChar e1) (digitChar e2)
  rw [digitVal_digitChar (by omega), digitVal_digitChar (by omega)] at ht2
  rw [digitVal_digitChar (by omega), digitVal_digitChar (by omega)] at ht4
  rw [digitVal_digitChar (by omega), digitVal_digitChar (by omega)] at ht6
  rw [digitVal_digitChar (by omega), digitVal_digitChar (by omega),
    digitVal_digitChar (by omega)] at ht8
  refine ⟨by simp, ?_, ?_, ?_⟩
  · intro c hc
    simp only [List.cons_append, List.nil_append, List.mem_cons, List.not_mem_nil,
      or_false] at hc
    rcases hc with rfl | rfl | rfl | rfl | rfl | rfl | rfl | rfl | rfl | rfl | rfl <;>
      exact isDigit_digitChar (by omega)
  · show decodeFnr ([digitChar (d.day / 10 + 4), digitChar (d.day % 10),
      digitChar (d.month / 10), digitChar (d.month % 10), digitChar (d.year % 100 / 10),
      digitChar (d.year % 100 % 10), digitChar (x / 100), digitChar (x / 10 % 10),
      digitChar (x % 10)] ++ [digitChar e1, digitChar e2]) true false = .ok d
    simp only [List.cons_append, List.nil_append] at ht2 ht4 ht6 ht8 ⊢
    rw [decodeFnr_ok_intro_dnr (by omega) (by omega) (by omega) (by omega) (by omega)]
    rw [ht2, ht4, ht6, ht8]
    have hyy : 10 * (d.year % 100 / 10) + d.year % 100 % 10 = d.year % 100 := by omega
    have hxx : 100 * (x / 100) + 10 * (x / 10 % 10) + x % 10 = x := by omega
    rw [hyy, hxx]
    have hres : resolveYear (d.year % 100) x = d.year :=
      (resolveYear_eq_iff h1 h2 (by omega)).mpr ⟨rfl, hband⟩
    rw [hres,
      show 10 * (d.month / 10) + d.month % 10 = d.month from by omega,
      show 10 * (d.day / 10 + 4) + d.day % 10 - 40 = d.day from by omega]
  · exact checksum_fixed (by simp [dateChars, twoDigitChars, ind3Chars, dnrDateChars]) hgen

theorem mem_generate_of_x {d : Date} {f : Bool} {s : List Char} {x : Nat}
    (h1 : 1900 ≤ d.year) (h2 : d.year ≤ 2039)
    (hband : bandCond d.year x) (hx : x ≤ 999)
    (hcand : generate_control_digits (dateChars d ++ ind3Chars x) = some s ∨
      (f = true ∧ generate_control_digits (dnrDateChars (dateChars d) ++ ind3Chars x) = some s)) :
    s ∈ generate_fnr_for_day d f := by
  simp only [generate_fnr_for_day]
  rcases hband with ⟨hy99, hx499⟩ | ⟨hy40, hy99, hx900⟩ | ⟨hy2000, hx500⟩
  · rw [if_pos ⟨h1, hy99⟩]
    exact List.mem_append_left _ (mem_bandFnrs.mpr ⟨x, by omega, by omega, hcand⟩)
  · rw [if_pos ⟨by omega, hy99⟩]
    refine List.mem_append_right _ ?_
    rw [if_pos hy40]
    exact mem_bandFnrs.mpr ⟨x, by omega, by omega, hcand⟩
  · rw [if_neg (by omega)]
    exact mem_bandFnrs.mpr ⟨x, by omega, by omega, hcand⟩

theorem spec_mem_generate {d : Date} {f : Bool} {s : List Char}
    (h1 : 1900 ≤ d.year) (h2 : d.year ≤ 2039)
    (hlen : s.length = 11) (hdig : ∀ c ∈ s, c.isDigit = true)
    (hdec : decodeFnr s f false = .ok d)
    (hck : generate_control_digits (s.take 9) = some s) :
    s ∈ generate_fnr_for_day d f := by
  obtain ⟨a0, a1, a2, a3, a4, a5, a6, a7, a8, a9, a10, rfl⟩ := exists_eleven hlen
  have w0 : digitVal a0 ≤ 9 := digitVal_le_of_isDigit (hdig _ (by simp))
  have w1 : digitVal a1 ≤ 9 := digitVal_le_of_isDigit (hdig _ (by simp))
  have w2 : digitVal a2 ≤ 9 := digitVal_le_of_isDigit (hdig _ (by simp))
  have w3 : digitVal a3 ≤ 9 := digitVal_le_of_isDigit (hdig _ (by simp))
  have w4 : digitVal a4 ≤ 9 := digitVal_le_of_isDigit (hdig _ (by simp))
  have w5 : digitVal a5 ≤ 9 := digitVal_le_of_isDigit (hdig _ (by simp))
  have w6 : digitVal a6 ≤ 9 := digitVal_le_of_isDigit (hdig _ (by simp))
  have w7 : digitVal a7 ≤ 9 := digitVal_le_of_isDigit (hdig _ (by simp))
  have w8 : digitVal a8 ≤ 9 := digitVal_le_of_isDigit (hdig _ (by simp))
  obtain ⟨ht2, ht4, ht6, ht8⟩ := toNum_slices a0 a1 a2 a3 a4 a5 a6 a7 a8 a9 a10
  have helim := decodeFnr_ok_elim hdec
  rw [ht2, ht4, ht6, ht8] at helim
  obtain ⟨hmeq, hm1, hm2, hyear, hd1, hd31, hdaycase⟩ := helim
  have hband := (resolveYear_eq_iff h1 h2 (by omega)).mp hyear.symm
  obtain ⟨hyyeq, hband⟩ := hband
  have e2 : a2 = digitChar (d.month / 10) := by
    rw [← digitChar_digitVal (hdig a2 (by simp))]
    exact congrArg digitChar (by omega)
  have e3 : a3 = digitChar (d.month % 10) := by
    rw [← digitChar_digitVal (hdig a3 (by simp))]
    exact congrArg digitChar (by omega)
  have e4 : a4 = digitChar (d.year % 100 / 10) := by
    rw [← digitChar_digitVal (hdig a4 (by simp))]
    exact congrArg digitChar (by omega)
  have e5 : a5 = digitChar (d.year % 100 % 10) := by
    rw [← digitChar_digitVal (hdig a5 (by simp))]
    exact congrArg digitChar (by omega)
  have e6 : a6 = digitChar ((100 * digitVal a6 + 10 * digitVal a7 + digitVal a8) / 100) := by
    conv_lhs => rw [← digitChar_digitVal (hdig a6 (by simp))]
    exact congrArg digitChar (by omega)
  have e7 : a7 = digitChar ((100 * digitVal a6 + 10 * digitVal a7 + digitVal a8) / 10 % 10) := by
    conv_lhs => rw [← digitChar_digitVal (hdig a7 (by simp))]
    exact congrArg digitChar (by omega)
  have e8 : a8 = digitChar ((100 * digitVal a6 + 10 * digitVal a7 + digitVal a8) % 10) := by
    conv_lhs => rw [← digitChar_digitVal (hdig a8 (by simp))]
    exact congrArg digitChar (by omega)
  have hck9 : generate_control_digits [a0, a1, a2, a3, a4, a5, a6, a7, a8] =
      some [a0, a1, a2, a3, a4, a5, a6, a7, a8, a9, a10] := hck
  rcases hdaycase with ⟨hnotd, hdayeq⟩ | ⟨hd41, hd71, hf, hdayeq⟩
  · -- plain date string: the day field is the day itself
    have e0 : a0 = digitChar (d.day / 10) := by
      have hv : digitVal a0 = d.day / 10 := by omega
      rw [← hv, digitChar_digitVal (hdig a0 (by simp))]
    have e1 : a1 = digitChar (d.day % 10) := by
      have hv : digitVal a1 = d.day % 10 := by omega
      rw [← hv, digitChar_digitVal (hdig a1 (by simp))]
    refine mem_generate_of_x h1 h2 hband (by omega) (Or.inl ?_)
    have h9 : dateChars d ++ ind3Chars (100 * digitVal a6 + 10 * digitVal a7 + digitVal a8) =
        [a0, a1, a2, a3, a4, a5, a6, a7, a8] := by
      have hc := dateChars_cons d (100 * digitVal a6 + 10 * digitVal a7 + digitVal a8)
        ([] : List Char)
      simp only [List.append_nil] at hc
      rw [hc, ← e0, ← e1, ← e2, ← e3, ← e4, ← e5, ← e6, ← e7, ← e8]
    rw [h9]
    exact hck9
  · -- D-number date string: the day field is day + 40
    subst hf
    have hday99 : d.day ≤ 99 := by omega
    have e0 : a0 = digitChar (d.day / 10 + 4) := by
      have hv : digitVal a0 = d.day / 10 + 4 := by omega
      rw [← hv, digitChar_digitVal (hdig a0 (by simp))]
    have e1 : a1 = digitChar (d.day % 10) := by
      have hv : digitVal a1 = d.day % 10 := by omega
      rw [← hv, digitChar_digitVal (hdig a1 (by simp))]
    refine mem_generate_of_x h1 h2 hband (by omega) (Or.inr ⟨rfl, ?_⟩)
    have h9 : dnrDateChars (dateChars d) ++
        ind3Chars (100 * digitVal a6 + 10 * digitVal a7 + digitVal a8) =
        [a0, a1, a2, a3, a4, a5, a6, a7, a8] := by
      have hc := dnrDateChars_cons d (100 * digitVal a6 + 10 * digitVal a7 + digitVal a8)
        ([] : List Char) hday99
      simp only [List.append_nil] at hc
      rw [hc, ← e0, ← e1, ← e2, ← e3, ← e4, ← e5, ← e6, ← e7, ← e8]
    rw [h9]
    exact hck9

theorem generate_mem_spec {d : Date} {f : Bool}
    (hv : isRealDate d) (h1 : 1900 ≤ d.year) (h2 : d.year ≤ 2039) {s : List Char}
    (hs : s ∈ generate_fnr_for_day d f) :
    s.length = 11 ∧ (∀ c ∈ s, c.isDigit = true) ∧ decodeFnr s f false = .ok d ∧
      generate_control_digits (s.take 9) = some s := by
  simp only [generate_fnr_for_day] at hs
  by_cases hy : 1900 ≤ d.year ∧ d.year ≤ 1999
  · rw [if_pos hy] at hs
    rcases List.mem_append.mp hs with hs | hs
    · obtain ⟨x, hx1, hx2, hcase⟩ := mem_bandFnrs.mp hs
      rcases hcase with hgen | ⟨hf, hgen⟩
      · exact candidate_spec_plain f hv h1 h2 (by omega) (Or.inl ⟨by omega, by omega⟩) hgen
      · subst hf
        exact candidate_spec_dnr hv h1 h2 (by omega) (Or.inl ⟨by omega, by omega⟩) hgen
    · by_cases hy40 : 1940 ≤ d.year
      · rw [if_pos hy40] at hs
        obtain ⟨x, hx1, hx2, hcase⟩ := mem_bandFnrs.mp hs
        rcases hcase with hgen | ⟨hf, hgen⟩
        · exact candidate_spec_plain f hv h1 h2 (by omega)
            (Or.inr (Or.inl ⟨by omega, by omega, by omega⟩)) hgen
        · subst hf
          exact candidate_spec_dnr hv h1 h2 (by omega)
            (Or.inr (Or.inl ⟨by omega, by omega, by omega⟩)) hgen
      · rw [if_neg hy40] at hs
        simp at hs
  · rw [if_neg hy] at hs
    obtain ⟨x, hx1, hx2, hcase⟩ := mem_bandFnrs.mp hs
    rcases hcase with hgen | ⟨hf, hgen⟩
    · exact candidate_spec_plain f hv h1 h2 (by omega)
        (Or.inr (Or.inr ⟨by omega, by omega⟩)) hgen
    · subst hf
      exact candidate_spec_dnr hv h1 h2 (by omega)
        (Or.inr (Or.inr ⟨by omega, by omega⟩)) hgen

theorem validate_ok_of {s : List Char} {df hf : Bool} {today d : Date}
    (hlen : s.length = 11) (hdig : ∀ c ∈ s, c.isDigit = true)
    (hdec : decodeFnr s df hf = .ok d) (hreal : isRealDate d) (hnf : ¬ dateLt today d)
    (hck : generate_control_digits (s.take 9) = some s) :
    validate_fnr s df hf today = .ok () := by
  unfold validate_fnr
  have hfmt : fnrFormatOk s := by
    refine ⟨by omega, ?_⟩
    intro c hc
    exact hdig c (List.mem_of_mem_take hc)
  rw [if_neg (not_not_intro hfmt), hdec]
  dsimp only
  rw [if_neg (not_not_intro hreal), if_neg hnf, hck]
  dsimp only
  rw [if_pos rfl]

/-! ## Claim C1: generator round-trip -/

/-- C1 (counterexample): for the date 1850-01-01 the first string produced
by `generate_fnr_for_day` decodes to 2050-01-01, not to the input date, so
the round-trip stated for every date fails. -/
theorem fnr_C1_counterexample :
    ("01015050094".toList) ∈ generate_fnr_for_day ⟨1850, 1, 1⟩ true ∧
      decodeFnr ("01015050094".toList) true false ≠ .ok ⟨1850, 1, 1⟩ := by
  constructor
  · decide
  · decide

/-- C1 (amended): for every calendar-valid date `d` with year between 1900
and 2039 that is not after the evaluation date, every string in
`generate_fnr_for_day d true` passes `check_fnr` with D-numbers accepted
and H-numbers rejected, and decodes (per the validator's D-number and
century rules) to exactly `d`. -/
theorem fnr_C1_roundtrip (d today : Date) (hv : isRealDate d)
    (h1 : 1900 ≤ d.year) (h2 : d.year ≤ 2039) (hfut : ¬ dateLt today d)
    (s : List Char) (hs : s ∈ generate_fnr_for_day d true) :
    (check_fnr s true false today).fst = true ∧ decodeFnr s true false = .ok d := by
  obtain ⟨hlen, hdig, hdec, hck⟩ := generate_mem_spec hv h1 h2 hs
  refine ⟨?_, hdec⟩
  unfold check_fnr
  rw [validate_ok_of hlen hdig hdec hv hfut hck]

/-- C1 (witness): the amended round-trip instantiated at 2000-01-01 with
evaluation date 2026-10-12 and the first generated identifier. -/
theorem fnr_C1_witness :
    (isRealDate ⟨2000, 1, 1⟩ ∧ ¬ dateLt ⟨2026, 10, 12⟩ ⟨2000, 1, 1⟩ ∧
      ("01010050053".toList) ∈ generate_fnr_for_day ⟨2000, 1, 1⟩ true) ∧
      (check_fnr ("01010050053".toList) true false ⟨2026, 10, 12⟩).fst = true ∧
      decodeFnr ("01010050053".toList) true false = .ok ⟨2000, 1, 1⟩ :=
  ⟨⟨by decide, by decide, by decide⟩,
    fnr_C1_roundtrip ⟨2000, 1, 1⟩ ⟨2026, 10, 12⟩ (by decide) (by decide) (by decide)
      (by decide) _ (by decide)⟩

/-! ## Claim C2: generator completeness -/

/-- C2 (counterexample): for the date 2040-01-01 the generator emits the
individual-number 900 candidate `01014090017`, but that string decodes to
1940-01-01 (century rollback), so the generated set is not the set of
strings decoding to the input date. -/
theorem fnr_C2_counterexample :
    ("01014090017".toList) ∈ generate_fnr_for_day ⟨2040, 1, 1⟩ false ∧
      decodeFnr ("01014090017".toList) false false ≠ .ok ⟨2040, 1, 1⟩ := by
  constructor
  · simp only [generate_fnr_for_day]
    rw [if_neg (by decide)]
    exact mem_bandFnrs.mpr ⟨900, by omega, by omega, Or.inl (by decide)⟩
  · decide

/-- C2 (amended): for every calendar-valid date `d` with year between 1900
and 2039 and either flag, the list produced by `generate_fnr_for_day`
contains exactly the 11-digit strings that decode to `d` (D-numbers
allowed iff the flag is set, H-numbers rejected) and whose two control
digits match the MOD-11 recomputation from their first nine digits. -/
theorem fnr_C2_complete (d : Date) (f : Bool) (hv : isRealDate d)
    (h1 : 1900 ≤ d.year) (h2 : d.year ≤ 2039) (s : List Char) :
    s ∈ generate_fnr_for_day d f ↔
      (s.length = 11 ∧ (∀ c ∈ s, c.isDigit = true) ∧ decodeFnr s f false = .ok d ∧
        generate_control_digits (s.take 9) = some s) :=
  ⟨fun hs => generate_mem_spec hv h1 h2 hs,
    fun ⟨hlen, hdig, hdec, hck⟩ => spec_mem_generate h1 h2 hlen hdig hdec hck⟩

/-- C2 (witness): the amended completeness instantiated at 1999-01-01 with
the D-number flag on, evaluated at the generated string for individual
number 900 (a member of the bonus band). -/
theorem fnr_C2_witness :
    (isRealDate ⟨1999, 1, 1⟩ ∧ 1900 ≤ (1999 : Nat) ∧ (1999 : Nat) ≤ 2039) ∧
      (("01019990016".toList) ∈ generate_fnr_for_day ⟨1999, 1, 1⟩ true ↔
        (("01019990016".toList).length = 11 ∧
          (∀ c ∈ ("01019990016".toList), c.isDigit = true) ∧
          decodeFnr ("01019990016".toList) true false = .ok ⟨1999, 1, 1⟩ ∧
          generate_control_digits (("01019990016".toList).take 9) =
            some ("01019990016".toList))) :=
  ⟨⟨by decide, by decide, by decide⟩,
    fnr_C2_complete ⟨1999, 1, 1⟩ true (by decide) (by decide) (by decide) _⟩

/-! ## Claim C3: the control-digit computation -/

theorem weightedSum_take (ws : List Nat) (cs : List Char) (n : Nat) (h : cs.length ≤ n) :
    weightedSum (ws.take n) cs = weightedSum ws cs := by
  induction ws generalizing cs n with
  | nil => simp
  | cons w ws ih =>
    cases cs with
    | nil => simp [weightedSum]
    | cons c cs =>
      cases n with
      | zero => simp at h
      | succ n =>
        simp only [List.take_succ_cons, weightedSum, List.zipWith_cons_cons, List.sum_cons]
        have := ih cs n (by simpa using h)
        simp only [weightedSum] at this
        rw [this]

theorem controlDigitOf_eq (n : Nat) :
    controlDigitOf n =
      if 11 - n % 11 = 10 then none else some (if n % 11 = 0 then 0 else 11 - n % 11) := by
  simp only [controlDigitOf]
  split_ifs <;> simp_all <;> omega

/-- C3: on a 9-digit input, the first control digit is `0` when the
weighted sum against `[3,7,6,1,8,9,4,5,2]` is divisible by 11 and
`11 - rest` otherwise, failing exactly when `11 - rest = 10`; the second
digit follows the same rule with weights `[5,4,3,2,7,6,5,4,3,2,1]` over
the ten digits formed by the input plus the first control digit; on
success the result is the nine input digits with the two control digits
appended. -/
theorem fnr_C3_control_digits (s : List Char) (h9 : s.length = 9)
    (r1 d1 r2 d2 : Nat)
    (hr1 : r1 = weightedSum [3, 7, 6, 1, 8, 9, 4, 5, 2] s % 11)
    (hd1 : d1 = if r1 = 0 then 0 else 11 - r1)
    (hr2 : r2 = weightedSum [5, 4, 3, 2, 7, 6, 5, 4, 3, 2, 1] (s ++ [digitChar d1]) % 11)
    (hd2 : d2 = if r2 = 0 then 0 else 11 - r2) :
    generate_control_digits s =
      if 11 - r1 = 10 then none
      else if 11 - r2 = 10 then none
      else some (s ++ [digitChar d1, digitChar d2]) := by
  subst hd2 hr2 hd1 hr1
  simp only [generate_control_digits]
  rw [show staticnumbers1.take 9 = ([3, 7, 6, 1, 8, 9, 4, 5, 2] : List Nat) from rfl,
    controlDigitOf_eq]
  by_cases h1 : 11 - weightedSum [3, 7, 6, 1, 8, 9, 4, 5, 2] s % 11 = 10
  · rw [if_pos h1, if_pos h1]
  · rw [if_neg h1, if_neg h1]
    dsimp only
    rw [weightedSum_take _ _ _ (by simp [h9]),
      show (staticnumbers2 : List Nat) = [5, 4, 3, 2, 7, 6, 5, 4, 3, 2, 1] from rfl,
      controlDigitOf_eq]
    by_cases h2 : 11 - weightedSum [5, 4, 3, 2, 7, 6, 5, 4, 3, 2, 1]
        (s ++ [digitChar (if weightedSum [3, 7, 6, 1, 8, 9, 4, 5, 2] s % 11 = 0 then 0
          else 11 - weightedSum [3, 7, 6, 1, 8, 9, 4, 5, 2] s % 11)]) % 11 = 10
    · rw [if_pos h2, if_pos h2]
    · rw [if_neg h2, if_neg h2]
      dsimp only
      rw [List.append_assoc]
      rfl

/-- C3 (witness): the fixed vector `010199123` yields remainders 5 and 3
and control digits 6 and 8. -/
theorem fnr_C3_witness :
    generate_control_digits ("010199123".toList) =
      if 11 - 5 = 10 then none
      else if 11 - 3 = 10 then none
      else some (("010199123".toList) ++ [digitChar 6, digitChar 8]) :=
  fnr_C3_control_digits ("010199123".toList) (by decide) 5 6 3 8 (by decide) (by decide)
    (by decide) (by decide)

/-! ## Claim C4: century resolution -/

/-- C4: individual numbers up to 499 resolve the two-digit year into the
1900s and numbers from 500 into the 2000s, except that a number of 900 or
more with a resolved year of 2040 or more is reduced by a century; in
particular individual number 900 with year 39 gives 2039 and with year 40
gives 1940, as the decoder exhibits on concrete identifiers. -/
theorem fnr_C4_century (yy ind : Nat) :
    (ind ≤ 499 → resolveYear yy ind = 1900 + yy) ∧
      (500 ≤ ind → ¬ (900 ≤ ind ∧ 2040 ≤ 2000 + yy) → resolveYear yy ind = 2000 + yy) ∧
      (900 ≤ ind → 2040 ≤ 2000 + yy → resolveYear yy ind = 2000 + yy - 100) ∧
      resolveYear 39 900 = 2039 ∧ resolveYear 40 900 = 1940 ∧
      decodeFnr ("01013990057".toList) true false = .ok ⟨2039, 1, 1⟩ ∧
      decodeFnr ("01014090017".toList) true false = .ok ⟨1940, 1, 1⟩ := by
  refine ⟨?_, ?_, ?_, by decide, by decide, by decide, by decide⟩ <;>
    (intros; simp only [resolveYear]; split_ifs <;> omega)

/-- C4 (witness): the first and third clauses instantiated at concrete
individual numbers. -/
theorem fnr_C4_witness :
    resolveYear 50 400 = 1950 ∧ resolveYear 40 900 = 2040 - 100 :=
  ⟨(fnr_C4_century 50 400).1 (by decide),
    (fnr_C4_century 40 900).2.2.1 (by decide) (by decide)⟩

/-! ## Claim C5: the format check and the unanchored regex -/

theorem decodeFnr_ne_malformed (fnr : List Char) (df hf : Bool) :
    decodeFnr fnr df hf ≠ .error .malformed := by
  unfold decodeFnr adjustDay adjustMonth
  split_ifs <;> simp <;> (try split_ifs <;> simp)

/-- C5 (counterexample): the all-digit 12-character string `010140900177`
passes the unanchored regex check and is rejected only by the final
control-digit comparison, not with the malformed-input error. -/
theorem fnr_C5_counterexample :
    validate_fnr ("010140900177".toList) true false ⟨2026, 10, 12⟩ =
        .error .controlDigit ∧
      FnrError.controlDigit ≠ FnrError.malformed ∧
      ("010140900177".toList).length = 12 ∧
      (∀ c ∈ ("010140900177".toList), c.isDigit = true) := by
  exact ⟨by decide, by decide, by decide, by decide⟩

/-- C5 (amended): `validate_fnr` rejects with the malformed-input error
exactly the strings that are shorter than 11 characters or have a
non-digit among their first 11 characters; strings of 11 or more digits
pass the format check (the regex is unanchored) and can only be rejected
by a later rule. -/
theorem fnr_C5_format (s : List Char) (df hf : Bool) (today : Date) :
    validate_fnr s df hf today = .error .malformed ↔
      ¬ (11 ≤ s.length ∧ ∀ c ∈ s.take 11, c.isDigit = true) := by
  unfold validate_fnr
  by_cases hfmt : fnrFormatOk s
  · rw [if_neg (not_not_intro hfmt)]
    constructor
    · intro h
      exfalso
      rcases hde : decodeFnr s df hf with e | dob
      · rw [hde] at h
        simp only [Except.error.injEq] at h
        exact decodeFnr_ne_malformed s df hf (by rw [hde, h])
      · rw [hde] at h
        dsimp only at h
        split_ifs at h <;> try simp at h
        rcases hg : generate_control_digits (s.take 9) with _ | g <;> rw [hg] at h
        · simp at h
        · dsimp only at h
          split_ifs at h <;> simp at h
    · intro h
      exact absurd hfmt h
  · rw [if_pos hfmt]
    simp only [true_iff, Except.error.injEq]
    exact hfmt

/-! ## Claim C6: the future-date rejection reason -/

/-- C6 (code divergence): `01019950065` decodes to the real calendar date
2099-01-01, which is strictly after the evaluation date 2026-10-12, yet
`validate_fnr` reports the not-a-valid-date reason rather than the
distinct future-date reason: the future-date `ValueError` in the source
is raised inside the `try` block whose `except ValueError` clause
replaces it. -/
theorem fnr_C6_future_reason :
    validate_fnr ("01019950065".toList) true false ⟨2026, 10, 12⟩ =
        .error (.invalidDate 2099 1 1) ∧
      decodeFnr ("01019950065".toList) true false = .ok ⟨2099, 1, 1⟩ ∧
      isRealDate ⟨2099, 1, 1⟩ ∧ dateLt ⟨2026, 10, 12⟩ ⟨2099, 1, 1⟩ ∧
      FnrError.invalidDate 2099 1 1 ≠ FnrError.futureDate := by
  exact ⟨by decide, by decide, by decide, by decide, by decide⟩

/-! ## Claim C7: agreement of the two API shapes -/

/-- C7: `check_fnr` returns `true` exactly when `validate_fnr` succeeds
and `false` exactly when it raises, never letting an error escape (it is
a total function into `Bool`), and on rejection it hands the `logger`
callback precisely the reason `validate_fnr` raises. -/
theorem fnr_C7_agreement (s : List Char) (df hf : Bool) (today : Date) :
    ((check_fnr s df hf today).fst = true ↔ validate_fnr s df hf today = .ok ()) ∧
      ((check_fnr s df hf today).fst = false ↔
        ∃ e, validate_fnr s df hf today = .error e) ∧
      (∀ e, validate_fnr s df hf today = .error e →
        check_fnr s df hf today = (false, some e)) ∧
      (validate_fnr s df hf today = .ok () → check_fnr s df hf today = (true, none)) := by
  unfold check_fnr
  rcases h : validate_fnr s df hf today with e | u
  · simp [h]
  · simp [h]

/-- C7 (witness): the agreement applied at a malformed input: the logger
receives the malformed-input reason. -/
theorem fnr_C7_witness :
    check_fnr ['x'] true false ⟨2026, 10, 12⟩ = (false, some FnrError.malformed) :=
  (fnr_C7_agreement ['x'] true false ⟨2026, 10, 12⟩).2.2.1 FnrError.malformed (by decide)

/-! ## Claim C9: shape of accepted strings -/

/-- C9: whenever `validate_fnr` succeeds the input has exactly 11
characters and equals the string rebuilt from its own first nine
characters with the two recomputed control digits — the final equality
check makes up for the unanchored regex. -/
theorem fnr_C9_accepted_shape (s : List Char) (df hf : Bool) (today : Date)
    (h : validate_fnr s df hf today = .ok ()) :
    s.length = 11 ∧ generate_control_digits (s.take 9) = some s := by
  unfold validate_fnr at h
  by_cases hfmt : fnrFormatOk s
  · rw [if_neg (not_not_intro hfmt)] at h
    rcases hde : decodeFnr s df hf with e | dob <;> rw [hde] at h
    · simp at h
    · dsimp only at h
      split_ifs at h <;> try simp at h
      rcases hg : generate_control_digits (s.take 9) with _ | g <;> rw [hg] at h
      · simp at h
      · dsimp only at h
        split_ifs at h with hsg
        · obtain ⟨htake, hlen⟩ := take_of_generate_control_digits hg
          have h9 : (s.take 9).length = 9 := by
            rw [List.length_take]
            have := hfmt.1
            omega
          rw [h9] at hlen
          refine ⟨?_, ?_⟩
          · rw [hsg]; omega
          · rw [hsg]
  · rw [if_pos hfmt] at h
    simp at h

/-- C9 (witness): the accepted-shape invariant applied at the valid
identifier `01014090017`. -/
theorem fnr_C9_witness :
    ("01014090017".toList).length = 11 ∧
      generate_control_digits (("01014090017".toList).take 9) =
        some ("01014090017".toList) :=
  fnr_C9_accepted_shape ("01014090017".toList) true false ⟨2026, 10, 12⟩ (by decide)

/-! ## Claim C10: generator bands before 1900 -/

theorem toNum_ind3Chars {x : Nat} (hx : x ≤ 999) : toNum (ind3Chars x) = x := by
  have h1 : toNum (ind3Chars x) =
      100 * digitVal (digitChar (x / 100)) + 10 * digitVal (digitChar (x / 10 % 10)) +
        digitVal (digitChar (x % 10)) := by
    simp [ind3Chars, toNum]
    omega
  rw [h1, digitVal_digitChar (by omega), digitVal_digitChar (by omega),
    digitVal_digitChar (by omega)]
  omega

/-- C10: for dates before 1900 the generator runs only the 500-999
individual-number band (the same band as years 2000 and later), with no
000-499 band and no 900-999 bonus round, and accordingly every produced
string carries an individual-number field between 500 and 999. -/
theorem fnr_C10_pre1900 (d : Date) (f : Bool) (h : d.year < 1900) :
    generate_fnr_for_day d f =
        bandFnrs (dateChars d) (dnrDateChars (dateChars d)) f 500 500 ∧
      ∀ s ∈ generate_fnr_for_day d f,
        500 ≤ toNum ((s.drop 6).take 3) ∧ toNum ((s.drop 6).take 3) ≤ 999 := by
  have hgen : generate_fnr_for_day d f =
      bandFnrs (dateChars d) (dnrDateChars (dateChars d)) f 500 500 := by
    simp only [generate_fnr_for_day]
    rw [if_neg (by omega)]
  refine ⟨hgen, ?_⟩
  intro s hs
  rw [hgen] at hs
  obtain ⟨x, hx1, hx2, hcase⟩ := mem_bandFnrs.mp hs
  have hind : (s.drop 6).take 3 = ind3Chars x := by
    rcases hcase with hgen2 | ⟨hf2, hgen2⟩ <;>
      obtain ⟨c1, c2, hc1, hc2, rfl⟩ := generate_control_digits_eq_some hgen2 <;>
      rw [List.append_assoc, List.drop_left' (by simp [dateChars, twoDigitChars, dnrDateChars]),
        List.take_left' (by simp [ind3Chars])]
  rw [hind, toNum_ind3Chars (by omega)]
  omega

/-- C10 (witness): the pre-1900 band restriction applied at the date
1850-01-01. -/
theorem fnr_C10_witness :
    generate_fnr_for_day ⟨1850, 1, 1⟩ false =
        bandFnrs (dateChars ⟨1850, 1, 1⟩) (dnrDateChars (dateChars ⟨1850, 1, 1⟩))
          false 500 500 ∧
      ∀ s ∈ generate_fnr_for_day ⟨1850, 1, 1⟩ false,
        500 ≤ toNum ((s.drop 6).take 3) ∧ toNum ((s.drop 6).take 3) ≤ 999 :=
  fnr_C10_pre1900 ⟨1850, 1, 1⟩ false (by decide)

/-! ## Claim C8: year fan-out over the calendar -/

theorem daysInMonth_pos (y m : Nat) (h1 : 1 ≤ m) (h2 : m ≤ 12) : 1 ≤ daysInMonth y m := by
  interval_cases m <;> simp [daysInMonth] <;> split_ifs <;> omega

theorem addDays_add (d : Date) (a b : Nat) :
    addDays d (a + b) = addDays (addDays d a) b := by
  induction b with
  | zero => rfl
  | succ b ih => rw [show a + (b + 1) = (a + b) + 1 from rfl, addDays, addDays, ih]

theorem addDays_within (y m : Nat) : ∀ j, j < daysInMonth y m →
    addDays ⟨y, m, 1⟩ j = ⟨y, m, j + 1⟩ := by
  intro j
  induction j with
  | zero => intro _; rfl
  | succ j ih =>
    intro hj
    rw [addDays, ih (by omega)]
    unfold nextDay
    rw [if_pos (by simpa using hj)]

theorem range_map_addDays (y m : Nat) :
    (List.range (daysInMonth y m)).map (addDays ⟨y, m, 1⟩) = monthDays y m := by
  rw [monthDays, List.range'_eq_map_range, List.map_map]
  apply List.map_congr_left
  intro i hi
  rw [List.mem_range] at hi
  rw [Function.comp_apply, addDays_within y m i hi]
  congr 1
  omega

theorem addDays_month_end (y m : Nat) (hm12 : m < 12) (hdim : 1 ≤ daysInMonth y m) :
    addDays ⟨y, m, 1⟩ (daysInMonth y m) = ⟨y, m + 1, 1⟩ := by
  rw [show daysInMonth y m = (daysInMonth y m - 1) + 1 from by omega, addDays,
    addDays_within y m _ (by omega)]
  unfold nextDay
  rw [show daysInMonth y m - 1 + 1 = daysInMonth y m from by omega]
  rw [if_neg (by simp), if_pos (by simpa using hm12)]

theorem month_step (y m r : Nat) (hm1 : 1 ≤ m) (hm12 : m < 12) :
    (List.range (daysInMonth y m + r)).map (addDays ⟨y, m, 1⟩) =
      monthDays y m ++ (List.range r).map (addDays ⟨y, m + 1, 1⟩) := by
  rw [List.range_add, List.map_append, List.map_map, range_map_addDays]
  congr 1
  apply List.map_congr_left
  intro i _
  rw [Function.comp_apply, addDays_add,
    addDays_month_end y m hm12 (daysInMonth_pos y m hm1 (by omega))]

theorem daysOfYear_eq_map (y : Nat) :
    (List.range (toOrdinal ⟨y, 12, 31⟩ - toOrdinal ⟨y, 1, 1⟩ + 1)).map (addDays ⟨y, 1, 1⟩) =
      daysOfYear y := by
  have hdbm : daysBeforeMonth y 12 =
      daysInMonth y 1 + (daysInMonth y 2 + (daysInMonth y 3 + (daysInMonth y 4 +
        (daysInMonth y 5 + (daysInMonth y 6 + (daysInMonth y 7 + (daysInMonth y 8 +
        (daysInMonth y 9 + (daysInMonth y 10 + (daysInMonth y 11 + 0)))))))))) := rfl
  have hd12 : daysInMonth y 12 = 31 := rfl
  have hdbm1 : daysBeforeMonth y 1 = 0 := rfl
  have hsum : toOrdinal ⟨y, 12, 31⟩ - toOrdinal ⟨y, 1, 1⟩ + 1 =
      daysInMonth y 1 + (daysInMonth y 2 + (daysInMonth y 3 + (daysInMonth y 4 +
        (daysInMonth y 5 + (daysInMonth y 6 + (daysInMonth y 7 + (daysInMonth y 8 +
        (daysInMonth y 9 + (daysInMonth y 10 + (daysInMonth y 11 + daysInMonth y 12)))))))))) := by
    simp only [toOrdinal]
    rw [hdbm1, hdbm, hd12]
    omega
  rw [hsum, month_step y 1 _ (by omega) (by omega),
    show (⟨y, 1 + 1, 1⟩ : Date) = ⟨y, 2, 1⟩ from rfl,
    month_step y 2 _ (by omega) (by omega),
    show (⟨y, 2 + 1, 1⟩ : Date) = ⟨y, 3, 1⟩ from rfl,
    month_step y 3 _ (by omega) (by omega),
    show (⟨y, 3 + 1, 1⟩ : Date) = ⟨y, 4, 1⟩ from rfl,
    month_step y 4 _ (by omega) (by omega),
    show (⟨y, 4 + 1, 1⟩ : Date) = ⟨y, 5, 1⟩ from rfl,
    month_step y 5 _ (by omega) (by omega),
    show (⟨y, 5 + 1, 1⟩ : Date) = ⟨y, 6, 1⟩ from rfl,
    month_step y 6 _ (by omega) (by omega),
    show (⟨y, 6 + 1, 1⟩ : Date) = ⟨y, 7, 1⟩ from rfl,
    month_step y 7 _ (by omega) (by omega),
    show (⟨y, 7 + 1, 1⟩ : Date) = ⟨y, 8, 1⟩ from rfl,
    month_step y 8 _ (by omega) (by omega),
    show (⟨y, 8 + 1, 1⟩ : Date) = ⟨y, 9, 1⟩ from rfl,
    month_step y 9 _ (by omega) (by omega),
    show (⟨y, 9 + 1, 1⟩ : Date) = ⟨y, 10, 1⟩ from rfl,
    month_step y 10 _ (by omega) (by omega),
    show (⟨y, 10 + 1, 1⟩ : Date) = ⟨y, 11, 1⟩ from rfl,
    month_step y 11 _ (by omega) (by omega),
    show (⟨y, 11 + 1, 1⟩ : Date) = ⟨y, 12, 1⟩ from rfl,
    range_map_addDays y 12]
  rw [show daysOfYear y =
    monthDays y 1 ++ (monthDays y 2 ++ (monthDays y 3 ++ (monthDays y 4 ++ (monthDays y 5 ++
      (monthDays y 6 ++ (monthDays y 7 ++ (monthDays y 8 ++ (monthDays y 9 ++ (monthDays y 10 ++
      (monthDays y 11 ++ (monthDays y 12 ++ []))))))))))) from rfl]
  simp only [List.append_nil]

/-- C8: `generate_fnr_for_year` concatenates `generate_fnr_for_day` over
every calendar day of the year from January 1 through December 31 in date
order, iterating 366 days in leap years and 365 otherwise. -/
theorem fnr_C8_year_fanout (y : Nat) (f : Bool) :
    generate_fnr_for_year y f =
        (daysOfYear y).flatMap (fun d => generate_fnr_for_day d f) ∧
      (daysOfYear y).length = if isLeap y then 366 else 365 := by
  constructor
  · simp only [generate_fnr_for_year]
    rw [← daysOfYear_eq_map y, List.flatMap_map]
  · have hlen : (daysOfYear y).length =
        daysInMonth y 1 + (daysInMonth y 2 + (daysInMonth y 3 + (daysInMonth y 4 +
          (daysInMonth y 5 + (daysInMonth y 6 + (daysInMonth y 7 + (daysInMonth y 8 +
          (daysInMonth y 9 + (daysInMonth y 10 + (daysInMonth y 11 +
          (daysInMonth y 12 + 0))))))))))) := by
      rw [show daysOfYear y =
        monthDays y 1 ++ (monthDays y 2 ++ (monthDays y 3 ++ (monthDays y 4 ++ (monthDays y 5 ++
          (monthDays y 6 ++ (monthDays y 7 ++ (monthDays y 8 ++ (monthDays y 9 ++
          (monthDays y 10 ++ (monthDays y 11 ++ (monthDays y 12 ++ []))))))))))) from rfl]
      simp [monthDays]
    rw [hlen]
    cases h : isLeap y <;>
      simp only [show daysInMonth y 2 = if isLeap y then 29 else 28 from rfl, h] <;>
      norm_num [show daysInMonth y 1 = 31 from rfl, show daysInMonth y 3 = 31 from rfl,
        show daysInMonth y 4 = 30 from rfl, show daysInMonth y 5 = 31 from rfl,
        show daysInMonth y 6 = 30 from rfl, show daysInMonth y 7 = 31 from rfl,
        show daysInMonth y 8 = 31 from rfl, show daysInMonth y 9 = 30 from rfl,
        show daysInMonth y 10 = 31 from rfl, show daysInMonth y 11 = 30 from rfl,
        show daysInMonth y 12 = 31 from rfl]

end Fodselsnummer
